import Mathlib

/-!
Verification development for the udm_engine download manager.

The Go source is shallowly embedded: pure functions become Lean functions,
Go `int`/`int64` values become `Int` (the claims under study stay far from
the 2^63 overflow boundary), stateful code becomes explicit state passing,
and external effects (HTTP responses, the reader stream, the file system)
become explicit oracle inputs.  Real-number quantities that the source
computes in `float64` are modelled over `ℚ`; the inputs used in the
theorems are exactly representable, so no rounding discrepancy arises.
Lean strings are sequences of characters while Go strings are bytes; all
strings involved here are ASCII, where the two agree.
-/

/-! ## Chunk planner: `DivideChunks` (CancelDownload.go) and
`initializeChunks` (multi-stream orchestrator). -/

/-- Embedding of `DivideChunks(fileSize int64, chunkCount int) []int64`.
`chunkSize := fileSize / chunkCount` is Go truncated division (`Int.tdiv`);
the loop writes `chunkSize` everywhere except index `chunkCount-2`, which
additionally receives the remainder (`underFlowSize`).  The Go index
comparison `i == chunkCount-2` is on machine ints, hence compared in `Int`
(for `chunkCount = 1` the comparison is with `-1` and never fires). -/
def DivideChunks (fileSize : Int) (chunkCount : Nat) : List Int :=
  let chunkSize : Int := Int.tdiv fileSize (chunkCount : Int)
  let totalAllocatedSize : Int := (chunkCount : Int) * chunkSize
  let underFlowSize : Int := fileSize - totalAllocatedSize
  (List.range chunkCount).map (fun (i : Nat) =>
    if (i : Int) = (chunkCount : Int) - 2 then chunkSize + underFlowSize else chunkSize)

/-- Embedding of the `ChunkData` record (DownloaderModels.go). -/
structure ChunkData where
  Index : Nat
  Start : Int
  End : Int
  Size : Int
  IsCompleted : Bool
deriving DecidableEq, Repr

instance : Inhabited ChunkData := ⟨⟨0, 0, 0, 0, false⟩⟩

/-- The loop body of `initializeChunks`: walk the size list carrying
`currentOffset` and the running index, emitting one `ChunkData` per size
with `Start = currentOffset`, `End = currentOffset + size - 1`. -/
def initializeChunksFrom (offset : Int) (idx : Nat) : List Int → List ChunkData
  | [] => []
  | size :: rest =>
    { Index := idx, Start := offset, End := offset + size - 1,
      Size := size, IsCompleted := false }
      :: initializeChunksFrom (offset + size) (idx + 1) rest

/-- Embedding of `initializeChunks(chunkSizes []int64)` (part of the
multi-stream orchestrator): offsets start at `0`, indices at `0`. -/
def initializeChunks (chunkSizes : List Int) : List ChunkData :=
  initializeChunksFrom 0 0 chunkSizes

/-! ## Download status constants (DownloaderModels.go). -/

def DOWNLOAD_QUEUED : String := "queued"

def DOWNLOAD_IN_PROGRESS : String := "in_progress"

def DOWNLOAD_PAUSED : String := "paused"

def DOWNLOAD_COMPLETED : String := "completed"

def DOWNLOAD_FAILED : String := "failed"

def DOWNLOAD_STOPPED : String := "stopped"

/-! ## Strategy selector (StartDownload.go). -/

/-- Embedding of the `ServerData` struct produced by the probe. -/
structure ServerData where
  Filename : String
  Filesize : Int
  Filetype : String
  AcceptsRanges : Bool
  FinalURL : String
deriving DecidableEq, Repr

/-- Embedding of `UserPreferences` (DownloaderModels.go). -/
structure UserPreferences where
  DownloadDir : String
  fileName : String
  threadCount : Int
  maxRetries : Int
deriving DecidableEq, Repr

/-- The fields of `Downloader` consulted by the strategy selector. -/
structure Downloader where
  ServerHeaders : ServerData
  Prefs : UserPreferences
deriving DecidableEq, Repr

/-- Embedding of `getThreadCount` (DownloaderModels.go). -/
def getThreadCount (d : Downloader) : Int :=
  d.Prefs.threadCount

/-- Embedding of `shouldUseMultiStream` (StartDownload.go): refuses when
ranges are unsupported, the size is unknown (`≤ 0`), the size is below
10 MiB, or the user forced `threadCount = 1`. -/
def shouldUseMultiStream (d : Downloader) : Bool :=
  if !d.ServerHeaders.AcceptsRanges then false
  else if d.ServerHeaders.Filesize ≤ 0 then false
  else if d.ServerHeaders.Filesize < 10 * 1024 * 1024 then false
  else if getThreadCount d = 1 then false
  else true

/-- Embedding of `getOptimalThreadCount` (multi-stream orchestrator): the
user's positive thread count if set, else an automatic count by size. -/
def getOptimalThreadCount (d : Downloader) : Int :=
  if 0 < getThreadCount d then getThreadCount d
  else if d.ServerHeaders.Filesize < 10 * 1024 * 1024 then 2
  else if d.ServerHeaders.Filesize < 100 * 1024 * 1024 then 4
  else if d.ServerHeaders.Filesize < 1024 * 1024 * 1024 then 8
  else 12

/-- Embedding of the branch in `executeDownloadStrategy`
(StartDownload.go): the multi-stream path is taken iff
`d.ServerHeaders.AcceptsRanges && d.shouldUseMultiStream()`. -/
def multiStreamChosen (d : Downloader) : Bool :=
  d.ServerHeaders.AcceptsRanges && shouldUseMultiStream d

/-! ## Failure cleanup in the multi-stream orchestrator
(`executeMultiStreamDownload`, with `ufs.CleanupChunkFiles`). -/

/-- Embedding of `ufs.CleanupChunkFiles`: removes each named chunk file
from the disk (idempotent, missing files are ignored).  The disk is
modelled as the list of file paths present. -/
def CleanupChunkFiles (disk chunkFileNames : List String) : List String :=
  chunkFileNames.foldl (fun acc name => acc.filter (fun f => f != name)) disk

/-- Observable outcome of the failure branch of the orchestrator. -/
structure MultiStreamFailureResult where
  disk : List String
  Status : String
  onStopRaised : Bool
  onErrorRaised : Bool
deriving DecidableEq, Repr

/-- Embedding of the failure branch of `executeMultiStreamDownload`
(lines 144-157): when `downloadChunksConcurrently` returns an error,
`ufs.CleanupChunkFiles` runs unconditionally, and then the cause is
inspected — `ctx.Err() == context.Canceled` yields status `stopped` with
the on-stop callback, any other cause yields `handleDownloadError`
(status `failed`, on-error callback). -/
def executeMultiStreamFailure (disk chunkFileNames : List String)
    (ctxCanceled : Bool) : MultiStreamFailureResult :=
  let diskAfterCleanup := CleanupChunkFiles disk chunkFileNames
  if ctxCanceled then
    { disk := diskAfterCleanup, Status := DOWNLOAD_STOPPED,
      onStopRaised := true, onErrorRaised := false }
  else
    { disk := diskAfterCleanup, Status := DOWNLOAD_FAILED,
      onStopRaised := false, onErrorRaised := true }

/-! ## Pause/cancel control surface (PauseDownloader.go) and the worker
read loop (`downloadChunkWithProgress`). -/

/-- The downloader control state as seen by a worker: the pause flag of
the `PauseController`, the `Status` string, and whether the `context`
created by `DownloadMultiStream` has been canceled (`ctx.Done()` fires).
The worker loop polls exactly `isPaused` (through `checkPauseState`) and
`ctxCanceled`. -/
structure ControlState where
  isPaused : Bool
  Status : String
  ctxCanceled : Bool
deriving DecidableEq, Repr

/-- Embedding of `Cancel()` (PauseDownloader.go): clears the pause flag,
sets the status to `stopped`, and broadcasts on the pause condition
variable.  No other state is touched; in particular the `context` used by
the workers is not canceled (its cancel function is local to
`DownloadMultiStream` and `d.cancelFunc` is never assigned anywhere). -/
def Cancel (s : ControlState) : ControlState :=
  { s with isPaused := false, Status := DOWNLOAD_STOPPED }

/-- One result of `reader.Read(buffer)`: `n` bytes delivered, plus the
EOF/error status returned alongside them. -/
structure ReadResult where
  n : Nat
  isEOF : Bool
  isErr : Bool
deriving DecidableEq, Repr

/-- Outcome of the worker read loop: either the worker is blocked inside
`checkPauseState` (pause flag held), or the loop returned with the bytes
written so far and an optional error. -/
inductive ChunkLoopResult where
  | blockedOnPause (written : Int)
  | done (written : Int) (err : Option String)
deriving DecidableEq, Repr

/-- Embedding of `downloadChunkWithProgress` (part_001 lines 442-481).
Per iteration, while `totalWritten < expectedBytes`: honor the pause gate
(modelled as blocking if the pause flag is up), check cancellation via
the context, then read; delivered bytes are written and counted, `io.EOF`
breaks the loop with no error — even mid-chunk — and any other read
error is returned.  The read oracle is the list of successive
`reader.Read` results; an exhausted oracle reads as EOF.  File-write
errors are not modelled. -/
def downloadChunkWithProgress (isPaused ctxCanceled : Bool) (expectedBytes : Int) :
    List ReadResult → Int → ChunkLoopResult
  | [], totalWritten =>
    if totalWritten < expectedBytes then
      if isPaused then .blockedOnPause totalWritten
      else if ctxCanceled then .done totalWritten (some "context canceled")
      else .done totalWritten none
    else .done totalWritten none
  | r :: rest, totalWritten =>
    if totalWritten < expectedBytes then
      if isPaused then .blockedOnPause totalWritten
      else if ctxCanceled then .done totalWritten (some "context canceled")
      else
        let total2 := totalWritten + (r.n : Int)
        if r.isEOF then .done total2 none
        else if r.isErr then .done total2 (some "failed to read chunk data")
        else downloadChunkWithProgress isPaused ctxCanceled expectedBytes rest total2
    else .done totalWritten none

/-- One HTTP attempt at a chunk, as seen by `downloadSingleChunk`:
whether `client.Do` failed, the response status, and the body's read
results. -/
structure ChunkHTTPAttempt where
  transportError : Bool
  statusCode : Int
  reads : List ReadResult
deriving DecidableEq, Repr

/-- Embedding of `downloadSingleChunk` (part_001 lines 300-381): build
and issue one ranged request; a transport failure or a status other than
206 is an immediate error, otherwise the body is streamed by
`downloadChunkWithProgress` with `expectedBytes = Size - resumeOffset`. -/
def downloadSingleChunk (isPaused ctxCanceled : Bool) (attempt : ChunkHTTPAttempt)
    (chunkSize resumeOffset : Int) : ChunkLoopResult :=
  if attempt.transportError then .done 0 (some "failed to make request")
  else if attempt.statusCode ≠ 206 then .done 0 (some "unexpected status code")
  else downloadChunkWithProgress isPaused ctxCanceled (chunkSize - resumeOffset) attempt.reads 0

/-- Embedding of the worker goroutine body in
`downloadChunksConcurrently` (part_001 lines 234-286): it calls
`downloadSingleChunk` exactly once and forwards any error to the error
channel.  The attempt oracle gives the outcome each attempt would have;
only index `0` is ever consulted, and the job's `maxRetries` preference
is never read on this path (no retry loop exists). -/
def chunkWorkerResult (maxRetries : Nat) (attempts : Nat → ChunkHTTPAttempt)
    (isPaused ctxCanceled : Bool) (chunkSize resumeOffset : Int) : ChunkLoopResult :=
  downloadSingleChunk isPaused ctxCanceled (attempts 0) chunkSize resumeOffset

/-- A concrete attempt oracle: attempt 0 suffers a mid-chunk read error
after 100 bytes; every later attempt would deliver the full 200 bytes. -/
def flakyThenGood : Nat → ChunkHTTPAttempt := fun attempt =>
  if attempt = 0 then ⟨false, 206, [⟨100, false, false⟩, ⟨0, false, true⟩]⟩
  else ⟨false, 206, [⟨200, false, false⟩]⟩

/-- Embedding of the error collection at the end of
`downloadChunksConcurrently`: after all workers are joined, the first
error in the channel (if any) is returned as the job error. -/
def downloadChunksConcurrentlyResult (workerErrors : List (Option String)) : Option String :=
  match workerErrors.filterMap id with
  | [] => none
  | e :: _ => some e

/-! ## Server probe (`GetServerData` / `tryGetServerData`). -/

/-- Embedding of Go's `strings.Contains` (on ASCII data): `sub` occurs as
a contiguous substring of `s`.  This comparison is case-sensitive. -/
def containsSubstr (s sub : String) : Bool :=
  (List.range (s.data.length + 1)).any (fun i => sub.data.isPrefixOf (s.data.drop i))

/-- ASCII lowercasing, used only to express the spec's case-insensitive
comparison (`strings.ToLower` on ASCII input). -/
def lowerASCII (s : String) : String :=
  String.mk (s.data.map Char.toLower)

/-- The spec-side predicate for claim C8: `Accept-Ranges` contains
`bytes` as a case-insensitive substring. -/
def caseInsensitiveContainsBytes (header : String) : Bool :=
  containsSubstr (lowerASCII header) "bytes"

/-- Embedding of `fmt.Sscanf(cl, "%d", &size)`: skip leading spaces,
parse an optionally signed decimal; on failure the target keeps its zero
value. -/
def goSscanfInt (s : String) : Int :=
  let t := s.dropWhile (fun c => c = ' ')
  let neg := t.startsWith "-"
  let t2 := if neg then t.drop 1 else t
  let digits := t2.takeWhile Char.isDigit
  match digits.toNat? with
  | none => 0
  | some v => if neg then -(v : Int) else (v : Int)

/-- Embedding of `mimeExtensionFromContentType` (part_012): a small
built-in MIME → extension table. -/
def mimeExtensionFromContentType (ct : String) : String :=
  if ct = "image/jpeg" then ".jpg"
  else if ct = "image/png" then ".png"
  else if ct = "image/gif" then ".gif"
  else if ct = "text/html" then ".html"
  else if ct = "application/pdf" then ".pdf"
  else ""

/-- Lookup in the parameter map produced by `mime.ParseMediaType`. -/
def lookupParam (ps : List (String × String)) (key : String) : Option String :=
  (ps.find? (fun p => p.1 == key)).map Prod.snd

/-- Environment of one probe attempt: the outcome of the HEAD request and
of the external library calls `tryGetServerData` makes on it.
`newRequestError`/`transportError` model `http.NewRequest`/`client.Do`
failing; `cdParseOk`/`cdParams` model `mime.ParseMediaType` on the
`Content-Disposition` header; `queryUnescapeOk`/`queryUnescaped` model
`url.QueryUnescape` of the `filename*` value after its `UTF-8` prefix is
stripped; `urlParseOk`/`urlPathBase` model `path.Base` of the parsed
final URL's path. -/
structure ProbeAttemptEnv where
  newRequestError : Bool
  transportError : Bool
  StatusCode : Int
  ContentDisposition : String
  cdParseOk : Bool
  cdParams : List (String × String)
  queryUnescapeOk : Bool
  queryUnescaped : String
  urlParseOk : Bool
  urlPathBase : String
  ContentLength : String
  ContentType : String
  AcceptRanges : String
  FinalURL : String
deriving DecidableEq, Repr

/-- Embedding of `tryGetServerData` (part_012 lines 158-247).  The
returned pair mirrors Go's `(*ServerData, error)`, each component
independently nullable.  Note the early-return on line 172: when
`client.Do` succeeds but the status is `≥ 400`, the function returns
`nil, err` where `err` is `nil` — both components empty. -/
def tryGetServerData (r : ProbeAttemptEnv) : Option ServerData × Option String :=
  if r.newRequestError then (none, some "invalid request")
  else if r.transportError = true ∨ 400 ≤ r.StatusCode then
    (none, if r.transportError then some "transport error" else none)
  else
    let fnameCD : String :=
      if r.ContentDisposition = "" then ""
      else if !r.cdParseOk then ""
      else
        match lookupParam r.cdParams "filename" with
        | some name => name
        | none =>
          match lookupParam r.cdParams "filename*" with
          | some name =>
            if "UTF-8\x27\x27".isPrefixOf name then
              (if r.queryUnescapeOk then r.queryUnescaped else "")
            else ""
          | none => ""
    let fnameURL : String :=
      if fnameCD = "" then
        (if r.urlParseOk then
          (if r.urlPathBase != "" && containsSubstr r.urlPathBase "." then r.urlPathBase
            else "")
          else "")
      else fnameCD
    let size : Int := if r.ContentLength != "" then goSscanfInt r.ContentLength else 0
    let accepts : Bool := containsSubstr r.AcceptRanges "bytes"
    let fnameFinal : String :=
      if fnameURL = "" then "downloaded_file" ++ mimeExtensionFromContentType r.ContentType
      else fnameURL
    (some { Filename := fnameFinal, Filesize := size, Filetype := r.ContentType,
            AcceptsRanges := accepts, FinalURL := r.FinalURL }, none)

/-- The retry loop of `GetServerData` (part_012 lines 107-123): up to
`remaining` further attempts starting at number `attempt`; an attempt
whose error component is `nil` returns immediately (whatever the data
component is), otherwise the error is remembered and the next attempt
runs; when attempts are exhausted the aggregated error is returned. -/
def getServerDataAux (env : Nat → ProbeAttemptEnv) :
    Nat → Nat → Option String → Option ServerData × Option String
  | _, 0, lastErr => (none, some ("failed after 3 attempts: " ++ lastErr.getD ""))
  | attempt, remaining + 1, _ =>
    match tryGetServerData (env attempt) with
    | (data, none) => (data, none)
    | (_, some e) => getServerDataAux env (attempt + 1) remaining (some e)

/-- Embedding of `GetServerData`: `maxRetries = 3` attempts, numbered
from 1. -/
def GetServerData (env : Nat → ProbeAttemptEnv) : Option ServerData × Option String :=
  getServerDataAux env 1 3 none

/-- A probe attempt whose HEAD request succeeds at the transport level
but receives HTTP 404. -/
def probe404 : ProbeAttemptEnv :=
  { newRequestError := false, transportError := false, StatusCode := 404,
    ContentDisposition := "", cdParseOk := false, cdParams := [],
    queryUnescapeOk := false, queryUnescaped := "", urlParseOk := true,
    urlPathBase := "file.bin", ContentLength := "", ContentType := "",
    AcceptRanges := "", FinalURL := "http://host/file.bin" }

/-- A successful probe attempt whose `Accept-Ranges` header is `Bytes`
(capital B). -/
def probeBytesHeader : ProbeAttemptEnv :=
  { newRequestError := false, transportError := false, StatusCode := 200,
    ContentDisposition := "", cdParseOk := false, cdParams := [],
    queryUnescapeOk := false, queryUnescaped := "", urlParseOk := true,
    urlPathBase := "file.bin", ContentLength := "1048576", ContentType := "",
    AcceptRanges := "Bytes", FinalURL := "http://host/file.bin" }

/-! ## Progress tracking (`updateProgress`, part_006 lines 541-561). -/

/-- The fields of the `ProgressTracker` touched by `updateProgress`.
Times are in seconds. -/
structure ProgressTracker where
  BytesCompleted : Int
  LastReported : ℚ
  SpeedBps : ℚ
deriving DecidableEq, Repr

/-- Embedding of `updateProgress(bytesRead, totalSize)` (part_006 lines
541-561): the byte count always grows by `bytesRead`; when at least one
second has passed since `LastReported`, the speed is recomputed as
`bytesRead / elapsed` (only this call's delta!), `LastReported` is reset
and the progress callback fires (the returned Bool). -/
def updateProgress (pt : ProgressTracker) (bytesRead : Int) (now : ℚ) :
    ProgressTracker × Bool :=
  let afterBytes : ProgressTracker :=
    { pt with BytesCompleted := pt.BytesCompleted + bytesRead }
  if 1 ≤ now - pt.LastReported then
    ({ afterBytes with
        SpeedBps := (bytesRead : ℚ) / (now - pt.LastReported),
        LastReported := now }, true)
  else (afterBytes, false)

/-- A fresh tracker at time `0`. -/
def trackerAtZero : ProgressTracker :=
  { BytesCompleted := 0, LastReported := 0, SpeedBps := 0 }

/-! # Theorems -/

/-! ## Chunk planner lemmas. -/

theorem DivideChunks_length (N : Int) (k : Nat) : (DivideChunks N k).length = k := by
  simp [DivideChunks]

theorem getD_map_range {α : Type} (f : Nat → α) (n i : Nat) (d : α) (h : i < n) :
    ((List.range n).map f).getD i d = f i := by
  rw [List.getD_eq_getElem?_getD, List.getElem?_map, List.getElem?_range h]
  rfl

theorem DivideChunks_getD (N : Int) (k : Nat) (i : Nat) (h : i < k) :
    (DivideChunks N k).getD i 0 =
      (if (i : Int) = (k : Int) - 2
        then Int.tdiv N k + (N - (k : Int) * Int.tdiv N k)
        else Int.tdiv N k) := by
  unfold DivideChunks
  exact getD_map_range _ k i 0 h

theorem DivideChunks_sum (N : Int) (k : Nat) (hk : 1 ≤ k) :
    (DivideChunks N k).sum = N := by
  match k, hk with
  | 1, _ =>
    have h0 : ¬ ((0 : Nat) : Int) = ((1 : Nat) : Int) - 2 := by decide
    simp [DivideChunks, List.range_succ, h0]
  | (m+2), _ =>
    have hsplit : List.range (m+2) = List.range m ++ [m, m+1] := by
      rw [List.range_succ, List.range_succ, List.append_assoc]
      rfl
    unfold DivideChunks
    rw [hsplit, List.map_append, List.sum_append]
    have hconst :
        ((List.range m).map (fun (i : Nat) =>
          if (i : Int) = ((m+2 : Nat) : Int) - 2
          then Int.tdiv N (m+2 : Nat) + (N - ((m+2 : Nat) : Int) * Int.tdiv N (m+2 : Nat))
          else Int.tdiv N (m+2 : Nat))).sum
          = (m : Int) * Int.tdiv N (m+2 : Nat) := by
      have hcongr : ∀ i ∈ List.range m,
          (if (i : Int) = ((m+2 : Nat) : Int) - 2
            then Int.tdiv N (m+2 : Nat) + (N - ((m+2 : Nat) : Int) * Int.tdiv N (m+2 : Nat))
            else Int.tdiv N (m+2 : Nat)) = Int.tdiv N (m+2 : Nat) := by
        intro i hi
        have hi' : i < m := List.mem_range.mp hi
        have : ¬ ((i : Int) = ((m+2 : Nat) : Int) - 2) := by
          push_cast
          omega
        rw [if_neg this]
      rw [List.map_congr_left hcongr]
      simp [List.map_const', List.sum_replicate, nsmul_eq_mul]
    rw [hconst]
    have hm : ((m : Nat) : Int) = ((m+2 : Nat) : Int) - 2 := by push_cast; ring
    have hm1 : ¬ (((m+1 : Nat)) : Int) = ((m+2 : Nat) : Int) - 2 := by push_cast; omega
    simp only [List.map_cons, List.map_nil, List.sum_cons, List.sum_nil, hm, if_pos, hm1,
      if_neg, if_true]
    push_cast
    ring

theorem DivideChunks_base_pos (N : Int) (k : Nat) (hk : 1 ≤ k) (hN : (k : Int) ≤ N) :
    1 ≤ Int.tdiv N k := by
  have hk0 : (0 : Int) < (k : Int) := by exact_mod_cast hk
  have hN0 : (0 : Int) ≤ N := le_trans (le_of_lt hk0) hN
  rw [Int.tdiv_eq_ediv hN0 (le_of_lt hk0), Int.le_ediv_iff_mul_le hk0]
  linarith

theorem DivideChunks_rem_nonneg (N : Int) (k : Nat) (hk : 1 ≤ k) (hN : (k : Int) ≤ N) :
    0 ≤ N - (k : Int) * Int.tdiv N k := by
  have hk0 : (0 : Int) < (k : Int) := by exact_mod_cast hk
  have hN0 : (0 : Int) ≤ N := le_trans (le_of_lt hk0) hN
  rw [Int.tdiv_eq_ediv hN0 (le_of_lt hk0)]
  have h1 := Int.emod_nonneg N (ne_of_gt hk0)
  have h2 := Int.emod_def N (k : Int)
  linarith

theorem initializeChunksFrom_length (sizes : List Int) :
    ∀ (offset : Int) (idx : Nat),
      (initializeChunksFrom offset idx sizes).length = sizes.length := by
  induction sizes with
  | nil => intro o i; rfl
  | cons s rest ih => intro o i; simp [initializeChunksFrom, ih]

theorem initializeChunksFrom_getD (sizes : List Int) :
    ∀ (offset : Int) (idx j : Nat), j < sizes.length →
      (initializeChunksFrom offset idx sizes).getD j default =
        { Index := idx + j, Start := offset + (sizes.take j).sum,
          End := offset + (sizes.take (j + 1)).sum - 1,
          Size := sizes.getD j 0, IsCompleted := false } := by
  induction sizes with
  | nil => intro o idx j h; simp at h
  | cons s rest ih =>
    intro o idx j h
    cases j with
    | zero =>
      simp [initializeChunksFrom]
    | succ j' =>
      have h' : j' < rest.length := by simpa using h
      have hrec := ih (o + s) (idx + 1) j' h'
      simp only [initializeChunksFrom, List.getD_cons_succ, hrec, List.take_succ_cons,
        List.sum_cons, ChunkData.mk.injEq]
      exact ⟨by omega, by ring, by ring, trivial, trivial⟩

theorem initializeChunks_getD (sizes : List Int) (j : Nat) (h : j < sizes.length) :
    (initializeChunks sizes).getD j default =
      { Index := j, Start := (sizes.take j).sum,
        End := (sizes.take (j + 1)).sum - 1,
        Size := sizes.getD j 0, IsCompleted := false } := by
  have := initializeChunksFrom_getD sizes 0 0 j h
  simpa [initializeChunks] using this

theorem take_succ_sum (sizes : List Int) (i : Nat) (h : i < sizes.length) :
    (sizes.take (i + 1)).sum = (sizes.take i).sum + sizes.getD i 0 := by
  rw [List.sum_take_succ sizes i h, List.getD_eq_getElem?_getD, List.getElem?_eq_getElem h]
  rfl

/-- C4: for every file size `N` and worker count `k` with `k ≥ 1` and
`N ≥ k`, the chunk planner (`DivideChunks` followed by `initializeChunks`)
produces a partition of `[0, N)`: the chunk sizes sum to `N`, all chunk
sizes are positive, the inclusive ranges are contiguous and
non-overlapping (`C[i].End + 1 = C[i+1].Start`), the first chunk starts at
byte `0` and the last chunk ends at byte `N - 1`. -/
theorem C4_chunk_partition (N : Int) (k : Nat) (hk : 1 ≤ k) (hN : (k : Int) ≤ N) :
    (DivideChunks N k).sum = N ∧
    (initializeChunks (DivideChunks N k)).length = k ∧
    ((initializeChunks (DivideChunks N k)).getD 0 default).Start = 0 ∧
    ((initializeChunks (DivideChunks N k)).getD (k - 1) default).End = N - 1 ∧
    (∀ i, i + 1 < k →
      ((initializeChunks (DivideChunks N k)).getD i default).End + 1 =
        ((initializeChunks (DivideChunks N k)).getD (i + 1) default).Start) ∧
    (∀ i, i < k → 0 < (DivideChunks N k).getD i 0) := by
  have hlen := DivideChunks_length N k
  have hsum := DivideChunks_sum N k hk
  refine ⟨hsum, ?_, ?_, ?_, ?_, ?_⟩
  · rw [initializeChunks, initializeChunksFrom_length, hlen]
  · have h0 : 0 < (DivideChunks N k).length := by omega
    rw [initializeChunks_getD _ 0 h0]
    simp
  · have hklt : k - 1 < (DivideChunks N k).length := by omega
    rw [initializeChunks_getD _ (k - 1) hklt]
    have hsucc : k - 1 + 1 = k := by omega
    show ((DivideChunks N k).take (k - 1 + 1)).sum - 1 = N - 1
    rw [hsucc, List.take_of_length_le (le_of_eq hlen), hsum]
  · intro i hi
    have hi1 : i < (DivideChunks N k).length := by omega
    have hi2 : i + 1 < (DivideChunks N k).length := by omega
    rw [initializeChunks_getD _ i hi1, initializeChunks_getD _ (i + 1) hi2]
    show ((DivideChunks N k).take (i + 1)).sum - 1 + 1 = ((DivideChunks N k).take (i + 1)).sum
    ring
  · intro i hi
    rw [DivideChunks_getD N k i hi]
    have h1 := DivideChunks_base_pos N k hk hN
    have h2 := DivideChunks_rem_nonneg N k hk hN
    split_ifs <;> linarith

/-- Witness for C4 at `N = 10`, `k = 4`. -/
theorem C4_chunk_partition_witness :
    ((1 : Nat) ≤ 4 ∧ ((4 : Nat) : Int) ≤ 10) ∧
    ((DivideChunks 10 4).sum = 10 ∧
      (initializeChunks (DivideChunks 10 4)).length = 4 ∧
      ((initializeChunks (DivideChunks 10 4)).getD 0 default).Start = 0 ∧
      ((initializeChunks (DivideChunks 10 4)).getD (4 - 1) default).End = 10 - 1 ∧
      (∀ i : Nat, i + 1 < 4 →
        ((initializeChunks (DivideChunks 10 4)).getD i default).End + 1 =
          ((initializeChunks (DivideChunks 10 4)).getD (i + 1) default).Start) ∧
      (∀ i : Nat, i < 4 → 0 < (DivideChunks 10 4).getD i 0)) :=
  ⟨⟨by decide, by decide⟩, C4_chunk_partition 10 4 (by decide) (by decide)⟩

/-- C5: under `N ≥ k ≥ 1`, `DivideChunks` assigns the base size
`b = N tdiv k` to every chunk except index `k - 2`, which receives `b`
plus the remainder `N - k*b`; for `k = 1` the single chunk has size `N`,
for `k = 2` the remainder lands in chunk `0`, and concretely
`DivideChunks 10485761 4 = [2621440, 2621440, 2621441, 2621440]`. -/
theorem C5_divideChunks_sizes (N : Int) (k : Nat) (hk : 1 ≤ k) (hN : (k : Int) ≤ N) :
    ((DivideChunks N k).length = k ∧
      ∀ i, i < k → (DivideChunks N k).getD i 0 =
        (if (i : Int) = (k : Int) - 2
          then Int.tdiv N k + (N - (k : Int) * Int.tdiv N k)
          else Int.tdiv N k)) ∧
    (k = 1 → DivideChunks N 1 = [N]) ∧
    (k = 2 → DivideChunks N 2 =
      [Int.tdiv N 2 + (N - 2 * Int.tdiv N 2), Int.tdiv N 2]) ∧
    DivideChunks 10485761 4 = [2621440, 2621440, 2621441, 2621440] := by
  refine ⟨⟨DivideChunks_length N k, fun i hi => DivideChunks_getD N k i hi⟩, ?_, ?_, by decide⟩
  · intro _
    have h0 : ¬ (((0 : Nat) : Int) = ((1 : Nat) : Int) - 2) := by decide
    simp [DivideChunks, show List.range 1 = [0] from rfl, h0, Int.tdiv_one]
  · intro _
    have h0 : (((0 : Nat)) : Int) = ((2 : Nat) : Int) - 2 := by decide
    have h1 : ¬ ((((1 : Nat)) : Int) = ((2 : Nat) : Int) - 2) := by decide
    simp only [DivideChunks, show List.range 2 = [0, 1] from rfl, List.map_cons, List.map_nil,
      h0, if_pos, h1, if_neg, if_true]
    norm_num

/-- Witness for C5 at `N = 10485761`, `k = 4`. -/
theorem C5_divideChunks_sizes_witness :
    ((1 : Nat) ≤ 4 ∧ ((4 : Nat) : Int) ≤ 10485761) ∧
    (((DivideChunks 10485761 4).length = 4 ∧
      ∀ i : Nat, i < 4 → (DivideChunks 10485761 4).getD i 0 =
        (if (i : Int) = ((4 : Nat) : Int) - 2
          then Int.tdiv 10485761 4 + (10485761 - ((4 : Nat) : Int) * Int.tdiv 10485761 4)
          else Int.tdiv 10485761 4)) ∧
      ((4 : Nat) = 1 → DivideChunks 10485761 1 = [10485761]) ∧
      ((4 : Nat) = 2 → DivideChunks 10485761 2 =
        [Int.tdiv 10485761 2 + (10485761 - 2 * Int.tdiv 10485761 2), Int.tdiv 10485761 2]) ∧
      DivideChunks 10485761 4 = [2621440, 2621440, 2621441, 2621440]) :=
  ⟨⟨by decide, by decide⟩, C5_divideChunks_sizes 10485761 4 (by decide) (by decide)⟩

/-- C10: for `k ≥ 2` and `0 ≤ N < k` (below the spec's `N ≥ k`
precondition), `DivideChunks` still returns `k` sizes summing to `N`, with
every chunk of size `0` except index `k - 2`, which receives all `N`
bytes; consequently the induced inclusive ranges contain empty chunks
whose `End` is less than their `Start`. -/
theorem C10_divideChunks_small (N : Int) (k : Nat) (hk : 2 ≤ k) (h0 : 0 ≤ N)
    (hN : N < (k : Int)) :
    (DivideChunks N k).length = k ∧
    (DivideChunks N k).sum = N ∧
    (∀ i, i < k → (DivideChunks N k).getD i 0 =
      (if (i : Int) = (k : Int) - 2 then N else 0)) ∧
    (∀ i, i < k → ¬ ((i : Int) = (k : Int) - 2) →
      ((initializeChunks (DivideChunks N k)).getD i default).End <
        ((initializeChunks (DivideChunks N k)).getD i default).Start) := by
  have hb : Int.tdiv N k = 0 := by
    rw [Int.tdiv_eq_ediv h0 (by exact_mod_cast Nat.zero_le k)]
    exact Int.ediv_eq_zero_of_lt h0 hN
  have hgetD : ∀ i, i < k → (DivideChunks N k).getD i 0 =
      (if (i : Int) = (k : Int) - 2 then N else 0) := by
    intro i hi
    rw [DivideChunks_getD N k i hi, hb]
    split_ifs <;> ring
  refine ⟨DivideChunks_length N k, DivideChunks_sum N k (by omega), hgetD, ?_⟩
  intro i hi hne
  have hi' : i < (DivideChunks N k).length := by rw [DivideChunks_length]; omega
  rw [initializeChunks_getD _ i hi']
  show ((DivideChunks N k).take (i + 1)).sum - 1 < ((DivideChunks N k).take i).sum
  rw [take_succ_sum _ i hi', hgetD i hi, if_neg hne]
  omega

/-- Witness for C10 at `N = 2`, `k = 3`. -/
theorem C10_divideChunks_small_witness :
    ((2 : Nat) ≤ 3 ∧ (0 : Int) ≤ 2 ∧ (2 : Int) < ((3 : Nat) : Int)) ∧
    ((DivideChunks 2 3).length = 3 ∧
      (DivideChunks 2 3).sum = 2 ∧
      (∀ i : Nat, i < 3 → (DivideChunks 2 3).getD i 0 =
        (if (i : Int) = ((3 : Nat) : Int) - 2 then 2 else 0)) ∧
      (∀ i : Nat, i < 3 → ¬ ((i : Int) = ((3 : Nat) : Int) - 2) →
        ((initializeChunks (DivideChunks 2 3)).getD i default).End <
          ((initializeChunks (DivideChunks 2 3)).getD i default).Start)) :=
  ⟨⟨by decide, by decide, by decide⟩,
    C10_divideChunks_small 2 3 (by decide) (by decide) (by decide)⟩

/-! ## Strategy selection. -/

/-- C6: the strategy selector chooses the multi-stream path iff the
server accepts ranges, the size is known (`> 0`), the size is at least
10 MiB, and the effective worker count (`getOptimalThreadCount`, the
count actually used to spawn workers) is greater than 1; otherwise the
single-stream path is taken. -/
theorem C6_strategy_selector (d : Downloader) :
    multiStreamChosen d = true ↔
      (d.ServerHeaders.AcceptsRanges = true ∧
        0 < d.ServerHeaders.Filesize ∧
        10 * 1024 * 1024 ≤ d.ServerHeaders.Filesize ∧
        1 < getOptimalThreadCount d) := by
  obtain ⟨⟨fn, fs, ft, ar, fu⟩, dd, f, tc, mr⟩ := d
  simp only [multiStreamChosen, shouldUseMultiStream, getOptimalThreadCount, getThreadCount,
    Bool.and_eq_true]
  cases ar <;> simp <;> split_ifs <;> (try simp_all) <;> omega

/-- Witness for C6: a 20 MiB ranged download with unset thread count is
sent down the multi-stream path with 4 effective workers. -/
theorem C6_strategy_selector_witness :
    multiStreamChosen
        ⟨⟨"f.bin", 20 * 1024 * 1024, "application/octet-stream", true, "u"⟩,
          ⟨"", "", 0, 3⟩⟩ = true ∧
    getOptimalThreadCount
        ⟨⟨"f.bin", 20 * 1024 * 1024, "application/octet-stream", true, "u"⟩,
          ⟨"", "", 0, 3⟩⟩ = 4 :=
  ⟨(C6_strategy_selector _).mpr ⟨by decide, by decide, by decide, by decide⟩, by decide⟩

/-! ## Failure cleanup (claim C1). -/

theorem mem_CleanupChunkFiles (disk names : List String) (x : String) :
    x ∈ CleanupChunkFiles disk names ↔ x ∈ disk ∧ x ∉ names := by
  induction names generalizing disk with
  | nil => simp [CleanupChunkFiles]
  | cons n rest ih =>
    have hstep : CleanupChunkFiles disk (n :: rest)
        = CleanupChunkFiles (disk.filter (fun f => f != n)) rest := rfl
    rw [hstep, ih]
    simp only [List.mem_filter, bne_iff_ne, ne_eq, List.mem_cons, decide_not, not_or]
    tauto

theorem executeMultiStreamFailure_disk (disk names : List String) (c : Bool) :
    (executeMultiStreamFailure disk names c).disk = CleanupChunkFiles disk names := by
  unfold executeMultiStreamFailure
  cases c <;> rfl

/-- C1 counterexample: a multi-stream download of two chunks is canceled
(`ctx.Err() == context.Canceled`); the claim says all partial files are
retained, but the orchestrator's failure branch deletes both `.udtemp`
files (while correctly reporting status `stopped`). -/
theorem C1_counterexample :
    (executeMultiStreamFailure ["f (0).udtemp", "f (1).udtemp"]
        ["f (0).udtemp", "f (1).udtemp"] true).Status = DOWNLOAD_STOPPED ∧
    (executeMultiStreamFailure ["f (0).udtemp", "f (1).udtemp"]
        ["f (0).udtemp", "f (1).udtemp"] true).disk = [] := by
  constructor <;> rfl

/-- C1 amended: on every unsuccessfully terminating multi-stream
download the partial chunk files are deleted regardless of cause
(`CleanupChunkFiles` runs before the cause is inspected); the cause only
selects the status and callback — cancellation yields `stopped` and
on-stop, any other failure yields `failed` and on-error. -/
theorem C1_amended_cleanup_always (disk names : List String) (ctxCanceled : Bool) :
    (∀ nm ∈ names, nm ∉ (executeMultiStreamFailure disk names ctxCanceled).disk) ∧
    (executeMultiStreamFailure disk names ctxCanceled).Status
      = (if ctxCanceled then DOWNLOAD_STOPPED else DOWNLOAD_FAILED) ∧
    (executeMultiStreamFailure disk names ctxCanceled).onStopRaised = ctxCanceled ∧
    (executeMultiStreamFailure disk names ctxCanceled).onErrorRaised = !ctxCanceled := by
  refine ⟨?_, ?_, ?_, ?_⟩
  · intro nm hnm hmem
    rw [executeMultiStreamFailure_disk, mem_CleanupChunkFiles] at hmem
    exact hmem.2 hnm
  · unfold executeMultiStreamFailure
    cases ctxCanceled <;> rfl
  · unfold executeMultiStreamFailure
    cases ctxCanceled <;> rfl
  · unfold executeMultiStreamFailure
    cases ctxCanceled <;> rfl

/-- Witness for the amended C1: a canceled two-file download loses its
chunk file while an unrelated file survives, and the status is
`stopped`. -/
theorem C1_amended_cleanup_always_witness :
    "a (0).udtemp" ∉
      (executeMultiStreamFailure ["a (0).udtemp", "keep.txt"] ["a (0).udtemp"] true).disk ∧
    (executeMultiStreamFailure ["a (0).udtemp", "keep.txt"] ["a (0).udtemp"] true).Status
      = DOWNLOAD_STOPPED := by
  have h := C1_amended_cleanup_always ["a (0).udtemp", "keep.txt"] ["a (0).udtemp"] true
  exact ⟨h.1 _ (by simp), by simpa using h.2.1⟩

/-! ## Cancellation propagation (claim C2). -/

/-- C2 (code bug): `Cancel()` never touches the context the workers
poll.  After `Cancel` on an in-progress (here: paused) download the
status is `stopped` and the pause flag is cleared, yet `ctxCanceled` is
still false, so a worker mid-chunk observes no stop signal: it proceeds
to write its next 100-byte read and finishes normally instead of
terminating. -/
theorem C2_cancel_not_propagated :
    (∀ s : ControlState, (Cancel s).ctxCanceled = s.ctxCanceled) ∧
    (Cancel ⟨true, DOWNLOAD_IN_PROGRESS, false⟩).ctxCanceled = false ∧
    (Cancel ⟨true, DOWNLOAD_IN_PROGRESS, false⟩).isPaused = false ∧
    (Cancel ⟨true, DOWNLOAD_IN_PROGRESS, false⟩).Status = DOWNLOAD_STOPPED ∧
    downloadChunkWithProgress
        (Cancel ⟨true, DOWNLOAD_IN_PROGRESS, false⟩).isPaused
        (Cancel ⟨true, DOWNLOAD_IN_PROGRESS, false⟩).ctxCanceled
        100 [⟨100, false, false⟩] 0 = .done 100 none :=
  ⟨fun _ => rfl, rfl, rfl, rfl, by decide⟩

/-! ## Per-chunk retry policy (claim C3). -/

/-- C3 counterexample: with `max_retries = 3`, a single transient
mid-chunk failure (read error after 100 of 200 bytes) is surfaced
immediately by the worker — the second attempt, which would succeed, is
never made — and a worker error makes `downloadChunksConcurrently`
return an error, failing the job. -/
theorem C3_counterexample :
    chunkWorkerResult 3 flakyThenGood false false 200 0
      = .done 100 (some "failed to read chunk data") ∧
    downloadSingleChunk false false (flakyThenGood 1) 200 0 = .done 200 none ∧
    downloadChunksConcurrentlyResult [some "chunk 0 download failed"]
      = some "chunk 0 download failed" := by
  refine ⟨by decide, by decide, rfl⟩

/-- C3 amended: no per-chunk retry exists — the worker's result depends
only on the first attempt, whatever `max_retries` is; and a premature
clean EOF (connection closed without error before the expected byte
count) ends the chunk with no error at all, rather than being retried. -/
theorem C3_amended_no_retry :
    (∀ (mr1 mr2 : Nat) (a1 a2 : Nat → ChunkHTTPAttempt) (p c : Bool) (cs ro : Int),
      a1 0 = a2 0 →
      chunkWorkerResult mr1 a1 p c cs ro = chunkWorkerResult mr2 a2 p c cs ro) ∧
    (∀ (expected : Int) (n : Nat), 0 < expected →
      downloadChunkWithProgress false false expected [⟨n, false, false⟩, ⟨0, true, false⟩] 0
        = .done (n : Int) none) := by
  constructor
  · intro mr1 mr2 a1 a2 p c cs ro h
    unfold chunkWorkerResult
    rw [h]
  · intro expected n h
    simp only [downloadChunkWithProgress, if_pos h, Bool.false_eq_true, if_false]
    split_ifs <;> simp

/-- Witness for the amended C3: the worker result is identical for
`max_retries` 3 and 7 with oracles agreeing on attempt 0, and an EOF
after 100 of 200 bytes ends with 100 bytes and no error. -/
theorem C3_amended_no_retry_witness :
    chunkWorkerResult 3 flakyThenGood false false 200 0
      = chunkWorkerResult 7 (fun _ => flakyThenGood 0) false false 200 0 ∧
    downloadChunkWithProgress false false 200 [⟨100, false, false⟩, ⟨0, true, false⟩] 0
      = .done 100 none := by
  have h := C3_amended_no_retry
  exact ⟨h.1 3 7 flakyThenGood (fun _ => flakyThenGood 0) false false 200 0 (by rfl),
    h.2 200 100 (by decide)⟩

/-! ## Probe result shape (claim C7). -/

/-- C7 (code bug): a probe whose HEAD request succeeds at the transport
level but receives HTTP 404 makes `tryGetServerData` return `nil, nil`
(line 172 returns the transport error, which is nil here), and therefore
`GetServerData` returns a nil `ServerData` together with a nil error on
its first attempt — the "never neither" contract is violated. -/
theorem C7_probe_nil_nil :
    tryGetServerData probe404 = (none, none) ∧
    GetServerData (fun _ => probe404) = (none, none) := by
  constructor <;> rfl

/-! ## Accept-Ranges detection (claim C8). -/

/-- C8 counterexample: for the header value `Bytes` the probe leaves the
accepts-ranges flag false (`strings.Contains` is case-sensitive),
although the case-insensitive comparison required by the claim yields
true. -/
theorem C8_counterexample :
    ((tryGetServerData probeBytesHeader).1.map ServerData.AcceptsRanges) = some false ∧
    caseInsensitiveContainsBytes "Bytes" = true := by
  constructor <;> decide

/-- C8 amended: on every successful probe response, the accepts-ranges
flag is true iff the `Accept-Ranges` header contains `bytes` as a
case-sensitive substring. -/
theorem C8_amended_case_sensitive (r : ProbeAttemptEnv)
    (h1 : r.newRequestError = false) (h2 : r.transportError = false)
    (h3 : r.StatusCode < 400) :
    ((tryGetServerData r).1.map ServerData.AcceptsRanges)
      = some (containsSubstr r.AcceptRanges "bytes") := by
  have h4 : ¬ (400 ≤ r.StatusCode) := by omega
  simp [tryGetServerData, h1, h2, h4]

/-- Witness for the amended C8: with header exactly `bytes` the flag is
true. -/
theorem C8_amended_case_sensitive_witness :
    ((tryGetServerData { probeBytesHeader with AcceptRanges := "bytes" }).1.map
        ServerData.AcceptsRanges) = some true := by
  have h := C8_amended_case_sensitive { probeBytesHeader with AcceptRanges := "bytes" }
    rfl rfl (by decide)
  rw [h]
  decide

/-! ## Progress speed computation (claim C9). -/

/-- C9 counterexample: two updates — 100 bytes at t = 1/2 s (below the
1 s sample interval, so no sample), then 50 bytes at t = 3/2 s (sample
fires).  The bytes downloaded since the last speed sample are 150 over
3/2 s, so the claim requires a speed of 100 B/s, but the code stores
only the triggering call's delta over the elapsed time: 50 / (3/2) =
100/3 B/s. -/
theorem C9_counterexample :
    ((updateProgress ((updateProgress trackerAtZero 100 (1/2)).1) 50 (3/2)).1).SpeedBps
      = 100/3 ∧
    ((updateProgress ((updateProgress trackerAtZero 100 (1/2)).1) 50 (3/2)).1).BytesCompleted
      = 150 ∧
    ((150 : ℚ) / ((3/2 : ℚ) - 0)) = 100 ∧
    ¬ (((updateProgress ((updateProgress trackerAtZero 100 (1/2)).1) 50 (3/2)).1).SpeedBps
        = ((150 : ℚ) / ((3/2 : ℚ) - 0))) := by
  have h1 : (updateProgress trackerAtZero 100 (1/2)).1
      = { BytesCompleted := 100, LastReported := 0, SpeedBps := 0 } := by
    norm_num [updateProgress, trackerAtZero]
  have h2 : (updateProgress
        ({ BytesCompleted := 100, LastReported := 0, SpeedBps := 0 } : ProgressTracker)
        50 (3/2)).1
      = { BytesCompleted := 150, LastReported := 3/2, SpeedBps := 100/3 } := by
    norm_num [updateProgress]
  rw [h1, h2]
  norm_num

/-- C9 amended: when an update arrives at least 1 s after the last
report, the new speed is that single update's byte delta divided by the
elapsed time since the last report (bytes from intermediate updates
inside the window are not counted) and the report time resets; an update
within 1 s leaves speed and report time unchanged; the byte counter
always grows by the delta. -/
theorem C9_amended_speed (pt : ProgressTracker) (bytesRead : Int) (now : ℚ) :
    (1 ≤ now - pt.LastReported →
      (updateProgress pt bytesRead now).1.SpeedBps
        = (bytesRead : ℚ) / (now - pt.LastReported) ∧
      (updateProgress pt bytesRead now).1.LastReported = now ∧
      (updateProgress pt bytesRead now).2 = true) ∧
    (¬ 1 ≤ now - pt.LastReported →
      (updateProgress pt bytesRead now).1.SpeedBps = pt.SpeedBps ∧
      (updateProgress pt bytesRead now).1.LastReported = pt.LastReported ∧
      (updateProgress pt bytesRead now).2 = false) ∧
    (updateProgress pt bytesRead now).1.BytesCompleted
      = pt.BytesCompleted + bytesRead := by
  refine ⟨fun h => ?_, fun h => ?_, ?_⟩
  · simp [updateProgress, h]
  · simp [updateProgress, h]
  · by_cases h : 1 ≤ now - pt.LastReported <;> simp [updateProgress, h]

/-- Witness for the amended C9: a 100-byte update 2 s after the last
report yields speed 50 B/s. -/
theorem C9_amended_speed_witness :
    (1 ≤ (2 : ℚ) - trackerAtZero.LastReported) ∧
    (updateProgress trackerAtZero 100 2).1.SpeedBps = 50 := by
  have h : 1 ≤ (2 : ℚ) - trackerAtZero.LastReported := by norm_num [trackerAtZero]
  refine ⟨h, ?_⟩
  have h2 := (C9_amended_speed trackerAtZero 100 2).1 h
  rw [h2.1]
  norm_num [trackerAtZero]
